import Mathlib

/-!
Verification of the resolution-orchestration policy (`zeroinstall/injector/policy.py`)
against its natural-language design document.

The Python module is shallowly embedded: pure decision functions become Lean
functions, the stateful fixpoint loop becomes an explicit transition function on
a state record driven by per-iteration oracle data (solver output and download
completions), and external collaborators (interface cache, content store,
fetcher, filesystem clock) are passed in as explicit function-valued parameters.
-/

namespace ZeroInstall

/-- Log severities used by the module (the `debug`, `info` and `warn` functions
of the `logging` package). -/
inductive LogLevel where
  | debug
  | info
  | warning
deriving DecidableEq, Repr, BEq

/-- Modelled from the spec: the network-use levels of the external `model`
module (the enum {full, minimal, offline} of §6); the concrete strings follow
the upstream project. -/
def network_offline : String := "off-line"

/-- Modelled from the spec: the "minimal" network-use level. -/
def network_minimal : String := "minimal"

/-- Modelled from the spec: the "full" network-use level. -/
def network_full : String := "full"

/-- Modelled from the spec: the set of valid network-use levels. -/
def network_levels : List String := [network_offline, network_minimal, network_full]

/-- Modelled from the spec: the designated always-offline-first-run GUI
bootstrap feed URI from the external `namespaces` module (§4.7); only its
identity matters to the offline gate. -/
def injector_gui_uri : String := "http://0install.net/2007/interfaces/ZeroInstall-GUI.xml"

/-- One hour, `FAILED_CHECK_DELAY` in policy.py: if a check was started within
this period, another one is not started. -/
def FAILED_CHECK_DELAY : Int := 60 * 60

/-- Embedding of Python `s.startswith('/')` — the only prefix test the module
performs — as a head-character check, so that witnesses can evaluate it. -/
def startsWithSlash (s : String) : Bool := s.data.head? == some '/'

/-- A cached feed document (`ZeroInstallFeed`): its URL, the content version
stamp and the local clock of the last successful check.  Timestamps are seconds
since the epoch; `none` models Python `None`. -/
structure Feed where
  url : String
  last_modified : Option Int
  last_checked : Option Int
deriving DecidableEq, Repr

/-- The slice of the external interface cache consulted by the policy:
`get_feed` and `get_last_check_attempt` of `iface_cache`. -/
structure CacheEnv where
  get_feed : String → Option Feed
  get_last_check_attempt : String → Option Int

/-- Direct embedding of `Policy.is_stale` (policy.py lines 183-205).
`freshness` is the configured window, `now` the injected clock.  A Python
truthiness test `last_check_attempt and ...` guards the cooldown comparison,
so an attempt timestamp of `0` counts as absent. -/
def is_stale (env : CacheEnv) (freshness : Int) (now : Int) : Option Feed → Bool
  | none => true
  | some feed =>
    if startsWithSlash feed.url then false
    else if feed.last_modified.isNone then true
    else
      let staleness := now - feed.last_checked.getD 0
      if freshness == 0 || staleness < freshness then false
      else
        match env.get_last_check_attempt feed.url with
        | some t => if t != 0 && now - FAILED_CHECK_DELAY < t then false else true
        | none => true

/-- Staleness as the spec's §4.2 states it, rules taken in order: absent feed is
stale; local-path feed never; no last-modified means stale; fresh when the
window is zero or `now - last_checked` (missing last_checked read as 0) is below
the window; fresh when a check attempt happened within the last hour; otherwise
stale. -/
def is_stale_spec (env : CacheEnv) (freshness : Int) (now : Int) : Option Feed → Bool
  | none => true
  | some feed =>
    if startsWithSlash feed.url then false
    else if feed.last_modified.isNone then true
    else
      let staleness := now - feed.last_checked.getD 0
      if freshness == 0 || staleness < freshness then false
      else
        match env.get_last_check_attempt feed.url with
        | some t => if now - FAILED_CHECK_DELAY < t then false else true
        | none => true

/-- A concrete cache environment used to instantiate hypotheses of the
staleness theorem. -/
def cacheEnv0 : CacheEnv :=
  { get_feed := fun _ => none
    get_last_check_attempt := fun _ => some 0 }

/-- A concrete remote feed used to instantiate hypotheses of the staleness
theorem. -/
def feed0 : Feed :=
  { url := "http://example.com/feed.xml", last_modified := some 5, last_checked := some 0 }

/-- A feed reference inside an interface document (`model.Feed`): its URI and
the OS/machine architecture tags (`None` when unrestricted). -/
structure FeedRef where
  uri : String
  os : Option String
  machine : Option String
deriving DecidableEq, Repr

/-- The slice of `model.Interface` consulted by the policy: canonical URI,
display name (empty string models Python `None`/empty, both falsy), declared
feed references and the ids of the currently-known implementations. -/
structure Interface where
  uri : String
  name : String
  feeds : List FeedRef
  implementations : List String
deriving DecidableEq, Repr

/-- Direct embedding of `Policy.usable_feeds` (policy.py lines 166-181): the
generator yields, in order, the feed references whose OS tag is in the OS
ranking table and whose machine tag is in the machine ranking table; when
src-mode is set and the interface is the root, the machine table collapses to
the singleton source pseudo-architecture.  The external `arch` ranking tables
are passed in as lists of keys. -/
def usable_feeds (src : Bool) (root : String) (os_ranks machine_ranks : List (Option String))
    (iface : Interface) : List FeedRef :=
  let mr := if src && iface.uri == root then [some "src"] else machine_ranks
  iface.feeds.filter (fun f => os_ranks.contains f.os && mr.contains f.machine)

/-- An implementation record (`model.Implementation`): its id (a store key or
an absolute local path) plus the distribution-package flag and, for
distribution packages, the externally-reported installed flag
(`DistributionImplementation.installed`). -/
structure Implementation where
  id : String
  isDistribution : Bool
  installed : Bool
deriving DecidableEq, Repr

/-- The failure surface of `Policy.get_implementation`: the two typed
`SafeException`s and the raw `KeyError` that line 253 re-raises. -/
inductive GetImplError where
  | metadataMissing (uri : String)
  | noUsableImplementation (name : String) (offlineHint : Bool)
  | keyError (uri : String)
deriving DecidableEq, Repr

/-- Direct embedding of `Policy.get_implementation` (policy.py lines 232-253).
`selection` models the solver's selections dict keyed by interface URI (`none`
means the key is absent, which in Python raises `KeyError`).  The offline hint
is attached to the "no usable implementation" message exactly when network use
is off-line; when the interface has no known implementations the original
`KeyError` is re-raised (`raise ex`). -/
def get_implementation (network_use : String) (selection : String → Option Implementation)
    (iface : Interface) : Except GetImplError Implementation :=
  if iface.name == "" && iface.feeds.isEmpty then
    .error (.metadataMissing iface.uri)
  else
    match selection iface.uri with
    | some impl => .ok impl
    | none =>
      if !iface.implementations.isEmpty then
        .error (.noUsableImplementation iface.name (network_use == network_offline))
      else
        .error (.keyError iface.uri)

/-- The filesystem and content store operations consulted by the presence
check: `os.path.exists` and `iface_cache.stores.lookup` (`none` models the
lookup raising `NotStored`). -/
structure Stores where
  path_exists : String → Bool
  lookup : String → Option String

/-- Direct embedding of `Policy.get_implementation_path` (policy.py lines
223-230): a local-path id is returned as-is, otherwise the store lookup is
attempted and its failure propagates (modelled by `none`). -/
def get_implementation_path (s : Stores) (impl : Implementation) : Option String :=
  if startsWithSlash impl.id then some impl.id else s.lookup impl.id

/-- Direct embedding of `Policy.get_cached` (policy.py lines 255-271): branch
on the distribution flag, then on a local-path id, else try the store lookup;
`assert path` makes an empty returned path count as absent, and the bare
`except` collapses every failure to `false`.  The function is total: it never
raises. -/
def get_cached (s : Stores) (impl : Implementation) : Bool :=
  if impl.isDistribution then impl.installed
  else if startsWithSlash impl.id then s.path_exists impl.id
  else
    match get_implementation_path s impl with
    | some path => !(path == "")
    | none => false

/-- A fetched interface, with a name and no known implementations, that the
current selection does not cover: the input on which `get_implementation`
re-raises the raw `KeyError`. -/
def ifaceNoImpls : Interface :=
  { uri := "http://example.com/prog", name := "prog", feeds := [], implementations := [] }

/-- An interface with known implementations that the selection does not cover,
used to instantiate the "no usable implementation" branch. -/
def ifaceWithImpls : Interface :=
  { uri := "http://example.com/app", name := "app", feeds := [],
    implementations := ["sha1=abc"] }

/-- A concrete store in which every lookup succeeds with a non-empty path. -/
def stores0 : Stores :=
  { path_exists := fun p => p == "/opt/cached"
    lookup := fun k => if k == "sha1=abc" then some "/store/sha1=abc" else none }

/-- A store-keyed (non-distribution, non-local) implementation. -/
def implStoreKeyed : Implementation :=
  { id := "sha1=abc", isDistribution := false, installed := false }

/-- A feed reference carrying the source pseudo-architecture machine tag. -/
def feedSrcA : FeedRef := { uri := "a", os := some "Linux", machine := some "src" }

/-- A feed reference carrying a binary machine tag. -/
def feedBinB : FeedRef := { uri := "b", os := some "Linux", machine := some "i486" }

/-- A root interface declaring one source feed and one binary feed. -/
def ifaceRoot : Interface :=
  { uri := "http://r", name := "r", feeds := [feedSrcA, feedBinB], implementations := [] }

/-- Observable outcome of one call to the offline gate: the returned download
handle (the fetcher call is modelled by the URL it downloads, `none` when
suppressed), the severity of the message logged, and the updated
process-lifetime warned flag. -/
structure GateResult where
  handle : Option String
  level : LogLevel
  warned : Bool
deriving DecidableEq, Repr

/-- Direct embedding of `Policy.download_and_import_feed_if_online` (policy.py
lines 207-221): when not off-line, log at debug and launch the download; when
off-line, suppress the download and log at debug if already warned, at info for
the GUI bootstrap feed, and otherwise at warning while setting the warned
flag. -/
def download_and_import_feed_if_online (network_use : String) (warned : Bool)
    (url : String) : GateResult :=
  if !(network_use == network_offline) then
    { handle := some url, level := .debug, warned := warned }
  else if warned then
    { handle := none, level := .debug, warned := warned }
  else if url == injector_gui_uri then
    { handle := none, level := .info, warned := warned }
  else
    { handle := none, level := .warning, warned := true }

/-- A sequence of suppressed offline download attempts: the gate applied in
off-line mode to each URL in turn, threading the warned flag, collecting the
returned handle and the logged severity of each attempt. -/
def offline_gate_run (warned : Bool) : List String → List (Option String × LogLevel)
  | [] => []
  | url :: rest =>
    let r := download_and_import_feed_if_online network_offline warned url
    (r.handle, r.level) :: offline_gate_run r.warned rest

/-- The amended C7 log pattern: GUI-feed attempts made before the warned flag
is set log at info; the first non-GUI attempt logs the single warning; every
attempt after the flag is set logs at debug; no suppressed attempt returns a
handle. -/
def offline_logs_amended (urls : List String) : List (Option String × LogLevel) :=
  let pre := urls.takeWhile (fun x => x == injector_gui_uri)
  let post := urls.dropWhile (fun x => x == injector_gui_uri)
  match post with
  | [] => pre.map (fun _ => (none, LogLevel.info))
  | _ :: tl =>
    pre.map (fun _ => (none, LogLevel.info)) ++
      (none, LogLevel.warning) :: tl.map (fun _ => (none, LogLevel.debug))

/-- Accumulator of the `recalculate` feed loop: the stale-feed set (as the list
of URLs added, in order), the URLs handed to the fetcher, and the threaded
offline-warned flag. -/
structure RecalcAcc where
  stale : List String
  launched : List String
  warned : Bool
deriving DecidableEq, Repr

/-- The inputs `recalculate` consumes: the interface cache, the feeds-used set
reported by the single solver run, and the orchestrator's network-use mode,
freshness window and clock. -/
structure RecalcEnv where
  cache : CacheEnv
  feeds_used : List String
  network_use : String
  freshness : Int
  now : Int

/-- One iteration of the feed loop in `Policy.recalculate` (policy.py lines
151-160): local feeds are skipped; a missing feed or one without a
last-modified stamp goes to the offline gate; a stale feed is added to the
stale set and goes to the gate only when stale fetching is enabled. -/
def recalc_feed (env : RecalcEnv) (fetch_stale : Bool) (acc : RecalcAcc) (f : String) :
    RecalcAcc :=
  if startsWithSlash f then acc
  else
    match env.cache.get_feed f with
    | none =>
      let r := download_and_import_feed_if_online env.network_use acc.warned f
      { acc with launched := acc.launched ++ r.handle.toList, warned := r.warned }
    | some feed =>
      if feed.last_modified.isNone then
        let r := download_and_import_feed_if_online env.network_use acc.warned f
        { acc with launched := acc.launched ++ r.handle.toList, warned := r.warned }
      else if is_stale env.cache env.freshness env.now (some feed) then
        let stale' := if acc.stale.contains f then acc.stale else acc.stale ++ [f]
        if fetch_stale then
          let r := download_and_import_feed_if_online env.network_use acc.warned f
          { stale := stale', launched := acc.launched ++ r.handle.toList, warned := r.warned }
        else { acc with stale := stale' }
      else acc

/-- Observable outcome of `Policy.recalculate`: the rebuilt stale-feed set, the
URLs handed to the fetcher, the returned blockers list, whether the watchers
were notified, and the updated warned flag. -/
structure RecalcResult where
  stale_feeds : List String
  launched : List String
  blockers : List String
  notified : Bool
  warned_offline : Bool
deriving DecidableEq, Repr

/-- Direct embedding of `Policy.recalculate` (policy.py lines 135-164): reset
the stale set, run the solver once (its feeds-used output is `env.feeds_used`),
force stale fetching off when off-line, process each used feed, notify every
watcher, and return the `blockers` list that the body never appends to. -/
def recalculate (env : RecalcEnv) (warned0 : Bool) (fetch_stale_interfaces : Bool) :
    RecalcResult :=
  let fetch_stale := if env.network_use == network_offline then false
    else fetch_stale_interfaces
  let blockers : List String := []
  let acc := env.feeds_used.foldl (recalc_feed env fetch_stale)
    { stale := [], launched := [], warned := warned0 }
  { stale_feeds := acc.stale, launched := acc.launched, blockers := blockers,
    notified := true, warned_offline := acc.warned }

/-- The condition under which the feed loop hands a feed URL to the offline
gate: not local, and either uncached, never modified, or stale with stale
fetching enabled. -/
def wants_download (env : RecalcEnv) (fetch_stale : Bool) (f : String) : Bool :=
  !startsWithSlash f &&
    (match env.cache.get_feed f with
     | none => true
     | some feed =>
       feed.last_modified.isNone ||
         (is_stale env.cache env.freshness env.now (some feed) && fetch_stale))

/-- The condition under which the feed loop records a feed URL in the
stale-feed set: not local, cached with a last-modified stamp, and stale. -/
def stale_entry (env : RecalcEnv) (f : String) : Bool :=
  !startsWithSlash f &&
    (match env.cache.get_feed f with
     | none => false
     | some feed =>
       !feed.last_modified.isNone && is_stale env.cache env.freshness env.now (some feed))

/-- An online environment whose only used feed is absent from the cache: on it
`recalculate` launches a download. -/
def recalcEnvCex : RecalcEnv :=
  { cache := { get_feed := fun _ => none, get_last_check_attempt := fun _ => none }
    feeds_used := ["http://example.com/feed.xml"]
    network_use := network_full
    freshness := 2592000
    now := 1000000000 }

/-- One iteration's worth of external data consumed by the fixpoint loop: the
solver's feeds-used set and readiness verdict for this solve, and which
in-progress downloads have completed (`Download.happened`) when the loop
resumes after suspending on the blockers. -/
structure Round where
  feedsUsed : List String
  ready : Bool
  happened : String → Bool

/-- Why the fixpoint loop exited its `while True`. -/
inductive TermReason where
  | ready
  | exhausted
deriving DecidableEq, Repr

/-- State of `Policy.solve_with_downloads`: the finished set, the URL keys of
the in-progress download map in insertion order, the set of URLs ever handed to
the fetcher (history kept for specification purposes), the force flag, the
number of solver invocations, and the exit verdict once the loop has stopped. -/
structure LoopState where
  finished : List String
  inProgress : List String
  launched : List String
  force : Bool
  solves : Nat
  terminated : Option TermReason
deriving DecidableEq, Repr

/-- The launch pass of the loop body (policy.py lines 334-340): each used feed
is skipped when already finished or in progress, or local; otherwise it is
handed to the fetcher, keyed into the in-progress map and recorded as
launched. -/
def launch_feeds (fin : List String) : List String → List String → List String →
    List String × List String
  | [], ip, ln => (ip, ln)
  | f :: fs, ip, ln =>
    if fin.contains f || ip.contains f then launch_feeds fin fs ip ln
    else if startsWithSlash f then launch_feeds fin fs ip ln
    else launch_feeds fin fs (ip ++ [f]) (ln ++ [f])

/-- One iteration of `Policy.solve_with_downloads` (policy.py lines 322-352):
solve and notify watchers (counted in `solves`); exit ready when the solver is
ready and force is unset; otherwise set force, launch the missing feeds unless
off-line, exit exhausted when nothing is in progress, and else suspend on the
blockers and move every completed download from in-progress to finished.  A
terminated state absorbs further rounds. -/
def loop_step (offline : Bool) (st : LoopState) (r : Round) : LoopState :=
  match st.terminated with
  | some _ => st
  | none =>
    let st1 : LoopState := { st with solves := st.solves + 1 }
    if r.ready && !st1.force then { st1 with terminated := some .ready }
    else
      let st2 : LoopState := { st1 with force := true }
      let p := if offline then (st2.inProgress, st2.launched)
        else launch_feeds st2.finished r.feedsUsed st2.inProgress st2.launched
      if p.1.isEmpty then
        { st2 with inProgress := p.1, launched := p.2, terminated := some .exhausted }
      else
        { st2 with
            finished := st2.finished ++ p.1.filter (fun f => r.happened f),
            inProgress := p.1.filter (fun f => !r.happened f),
            launched := p.2 }

/-- Initial state of the fixpoint loop (policy.py lines 315-316) with the
caller-supplied force flag. -/
def loop_init (force : Bool) : LoopState :=
  { finished := [], inProgress := [], launched := [], force := force, solves := 0,
    terminated := none }

/-- The fixpoint loop driven by a list of per-iteration oracle rounds; a run
that has not yet terminated simply consumes all its rounds. -/
def loop_run (offline force : Bool) (rounds : List Round) : LoopState :=
  rounds.foldl (loop_step offline) (loop_init force)

/-- The download-deduplication invariant of the fixpoint loop: no URL appears
twice in the in-progress map, no URL is launched twice, in-progress is disjoint
from finished, the launched URLs are exactly the finished or in-progress ones,
and an exhausted exit leaves nothing in progress. -/
def LoopInv (st : LoopState) : Prop :=
  st.inProgress.Nodup ∧
  st.launched.Nodup ∧
  (∀ f ∈ st.inProgress, f ∉ st.finished) ∧
  (∀ f, f ∈ st.launched ↔ (f ∈ st.finished ∨ f ∈ st.inProgress)) ∧
  (st.terminated = some .exhausted → st.inProgress = [])

/-- A round whose solve is not ready and whose only used feed is one uncached
remote URL, with every download completing promptly. -/
def round_launch : Round :=
  { feedsUsed := ["http://a"], ready := false, happened := fun _ => true }

/-- A round with nothing further to use. -/
def round_drain : Round :=
  { feedsUsed := [], ready := true, happened := fun _ => false }

/-- A round whose solve is immediately ready. -/
def round_ready : Round :=
  { feedsUsed := [], ready := true, happened := fun _ => false }

/-- The outcome of each `ConfigParser` access performed by `Policy.__init__`
(policy.py lines 96-101): `none` models the access raising (missing section or
option, or an unparsable boolean or integer). -/
structure RawConfig where
  help_with_testing : Option Bool
  network_use : Option String
  freshness : Option Int
deriving DecidableEq, Repr

/-- The three configurable orchestrator settings of the spec's §6. -/
structure Settings where
  help_with_testing : Bool
  network_use : String
  freshness : Int
deriving DecidableEq, Repr

/-- The try-block of `Policy.__init__` (policy.py lines 95-104): the three
settings are assigned one at a time, so an access that raises keeps the
assignments already made; the final `assert` on the network level fires after
all three assignments and so changes nothing.  The returned flag records
whether an exception was caught (and hence a warning logged). -/
def read_config_steps (c : RawConfig) (st : Settings) : Settings × Bool :=
  match c.help_with_testing with
  | none => (st, true)
  | some hwt =>
    let st1 : Settings := { st with help_with_testing := hwt }
    match c.network_use with
    | none => (st1, true)
    | some nu =>
      let st2 : Settings := { st1 with network_use := nu }
      match c.freshness with
      | none => (st2, true)
      | some fr =>
        let st3 : Settings := { st2 with freshness := fr }
        if network_levels.contains st3.network_use then (st3, false) else (st3, true)

/-- Config loading at orchestrator construction (policy.py lines 93-104): when
no config file is found the try-block is skipped; otherwise every exception
inside it is caught, so construction always succeeds and the flag reports
whether a warning was logged. -/
def load_config (cfg : Option RawConfig) (st : Settings) : Settings × Bool :=
  match cfg with
  | none => (st, false)
  | some c => read_config_steps c st

/-- Default orchestrator settings: 30-day freshness window (policy.py line 75)
and full network use (line 80); the external solver's default testing policy is
modelled as false. -/
def default_settings : Settings :=
  { help_with_testing := false, network_use := network_full,
    freshness := 60 * 60 * 24 * 30 }

/-- A configuration whose freshness value is malformed (`int()` raises) while
the earlier fields parse. -/
def cfg_bad_freshness : RawConfig :=
  { help_with_testing := some true, network_use := some network_full, freshness := none }

/-- C3: `is_stale` evaluates exactly the ordered rule list of the claim.  The
hypothesis `FAILED_CHECK_DELAY ≤ now` (the clock is at least one hour past the
epoch, true of any real wall clock) bridges the code's truthiness reading of a
zero check-attempt timestamp with the spec's reading of it as a recorded
attempt. -/
theorem is_stale_matches_spec_rules (env : CacheEnv) (freshness now : Int)
    (h : FAILED_CHECK_DELAY ≤ now) (feed? : Option Feed) :
    is_stale env freshness now feed? = is_stale_spec env freshness now feed? := by
  cases feed? with
  | none => rfl
  | some feed =>
    simp only [is_stale, is_stale_spec]
    by_cases hloc : startsWithSlash feed.url
    · simp [hloc]
    · by_cases hlm : feed.last_modified.isNone
      · simp [hloc, hlm]
      · by_cases hfresh : (freshness == 0 || now - feed.last_checked.getD 0 < freshness) = true
        · simp [hloc, hlm, hfresh]
        · simp only [hloc, hlm, hfresh, if_false, Bool.false_eq_true]
          cases hlca : env.get_last_check_attempt feed.url with
          | none => simp
          | some t =>
            by_cases ht : t = 0
            · subst ht
              have h0 : ¬ (now - FAILED_CHECK_DELAY < (0 : Int)) := by omega
              simp [h0]
            · have ht' : (t != 0) = true := by
                simpa using ht
              simp [ht']

/-- Witness instantiating the staleness theorem at a concrete clock, window and
feed. -/
theorem is_stale_matches_spec_rules_witness :
    FAILED_CHECK_DELAY ≤ (100000 : Int) ∧
      is_stale cacheEnv0 10 100000 (some feed0) = is_stale_spec cacheEnv0 10 100000 (some feed0) :=
  ⟨by decide, is_stale_matches_spec_rules cacheEnv0 10 100000 (by decide) (some feed0)⟩

/-- C8: `usable_feeds` yields exactly the feeds whose OS tag is in the OS
ranking table and whose machine tag is in the machine ranking table, in feed
list order (the output is a sublist of the input); under src-mode at the root
the machine table is replaced by the source pseudo-architecture. -/
theorem usable_feeds_filter_characterisation (src : Bool) (root : String)
    (os_ranks machine_ranks : List (Option String)) (iface : Interface) :
    List.Sublist (usable_feeds src root os_ranks machine_ranks iface) iface.feeds ∧
    (¬ (src = true ∧ iface.uri = root) →
      ∀ f, f ∈ usable_feeds src root os_ranks machine_ranks iface ↔
        f ∈ iface.feeds ∧ f.os ∈ os_ranks ∧ f.machine ∈ machine_ranks) ∧
    (src = true → iface.uri = root →
      ∀ f, f ∈ usable_feeds src root os_ranks machine_ranks iface ↔
        f ∈ iface.feeds ∧ f.os ∈ os_ranks ∧ f.machine = some "src") := by
  refine ⟨List.filter_sublist _, ?_, ?_⟩
  · intro hne f
    have hcond : (src && iface.uri == root) = false := by
      by_cases hs : src = true
      · have hur : iface.uri ≠ root := fun h => hne ⟨hs, h⟩
        simp [hs, hur]
      · simp [Bool.eq_false_iff.mpr hs]
    simp [usable_feeds, hcond, List.mem_filter, List.contains_iff_exists_mem_beq,
      beq_iff_eq, and_assoc]
  · intro hs hr f
    have hcond : (src && iface.uri == root) = true := by simp [hs, hr]
    simp [usable_feeds, hcond, List.mem_filter, List.contains_iff_exists_mem_beq,
      beq_iff_eq, and_assoc]

/-- Witness instantiating the feed-filter theorem: under src-mode at the root,
only the feed whose machine tag is the source pseudo-architecture passes. -/
theorem usable_feeds_filter_characterisation_witness :
    true = true ∧ ifaceRoot.uri = "http://r" ∧
      (feedBinB ∈ usable_feeds true "http://r" [some "Linux"] [some "i486"] ifaceRoot ↔
        feedBinB ∈ ifaceRoot.feeds ∧ feedBinB.os ∈ [some "Linux"] ∧
          feedBinB.machine = some "src") :=
  ⟨rfl, rfl,
    (usable_feeds_filter_characterisation true "http://r" [some "Linux"] [some "i486"]
      ifaceRoot).2.2 rfl rfl feedBinB⟩

/-- C5 counterexample: a fetched interface (non-empty name) with no known
implementations that the selection does not cover makes `get_implementation`
re-raise the raw `KeyError` (policy.py line 253), so the claim that it never
propagates a raw untyped error is false. -/
theorem get_implementation_raw_key_error_cex :
    get_implementation network_full (fun _ => none) ifaceNoImpls =
        .error (.keyError "http://example.com/prog") ∧
      ifaceNoImpls.name ≠ "" ∧ ifaceNoImpls.implementations = [] :=
  ⟨rfl, by decide, rfl⟩

/-- C5 amended: `get_implementation` returns the chosen implementation when the
selection covers the interface; raises the typed metadata-missing error when the
interface has neither a name nor feeds; raises the typed selection-incomplete
error — with the offline hint exactly when network use is off-line — when the
selection does not cover the interface and the interface has known
implementations; and re-raises the raw `KeyError` when the uncovered interface
has no known implementations. -/
theorem get_implementation_amended_characterisation (network_use : String)
    (selection : String → Option Implementation) (iface : Interface) :
    (iface.name = "" → iface.feeds = [] →
      get_implementation network_use selection iface = .error (.metadataMissing iface.uri)) ∧
    (∀ impl, ¬ (iface.name = "" ∧ iface.feeds = []) → selection iface.uri = some impl →
      get_implementation network_use selection iface = .ok impl) ∧
    (¬ (iface.name = "" ∧ iface.feeds = []) → selection iface.uri = none →
      iface.implementations ≠ [] →
      get_implementation network_use selection iface =
        .error (.noUsableImplementation iface.name (network_use == network_offline))) ∧
    (¬ (iface.name = "" ∧ iface.feeds = []) → selection iface.uri = none →
      iface.implementations = [] →
      get_implementation network_use selection iface = .error (.keyError iface.uri)) := by
  refine ⟨?_, ?_, ?_, ?_⟩
  · intro hn hf
    simp [get_implementation, hn, hf]
  · intro impl hne hsel
    have hcond : (iface.name == "" && iface.feeds.isEmpty) = false := by
      rcases Decidable.em (iface.name = "") with hn | hn
      · have : iface.feeds ≠ [] := fun h => hne ⟨hn, h⟩
        simp [hn, List.isEmpty_iff, this]
      · simp [hn]
    simp [get_implementation, hcond, hsel]
  · intro hne hsel himp
    have hcond : (iface.name == "" && iface.feeds.isEmpty) = false := by
      rcases Decidable.em (iface.name = "") with hn | hn
      · have : iface.feeds ≠ [] := fun h => hne ⟨hn, h⟩
        simp [hn, List.isEmpty_iff, this]
      · simp [hn]
    simp [get_implementation, hcond, hsel, List.isEmpty_iff, himp]
  · intro hne hsel himp
    have hcond : (iface.name == "" && iface.feeds.isEmpty) = false := by
      rcases Decidable.em (iface.name = "") with hn | hn
      · have : iface.feeds ≠ [] := fun h => hne ⟨hn, h⟩
        simp [hn, List.isEmpty_iff, this]
      · simp [hn]
    simp [get_implementation, hcond, hsel, List.isEmpty_iff, himp]

/-- Witness instantiating the amended `get_implementation` theorem on the
selection-incomplete branch with the offline hint attached. -/
theorem get_implementation_amended_characterisation_witness :
    ¬ (ifaceWithImpls.name = "" ∧ ifaceWithImpls.feeds = []) ∧
    ifaceWithImpls.implementations ≠ [] ∧
    get_implementation network_offline (fun _ => none) ifaceWithImpls =
      .error (.noUsableImplementation "app" true) := by
  refine ⟨by decide, by decide, ?_⟩
  have h := (get_implementation_amended_characterisation network_offline
      (fun _ => none) ifaceWithImpls).2.2.1 (by decide) rfl (by decide)
  simpa [ifaceWithImpls] using h

/-- C6: `get_cached` branches on the distribution flag before consulting the
store: a distribution implementation's presence is its installed flag; a
local-path implementation's presence is filesystem existence; otherwise
presence holds exactly when the store lookup succeeds, and lookup failure
collapses to `false`.  The function is `Bool`-valued and total, so it never
raises; the hypothesis says the external store never reports success with an
empty path (the `assert path` sanity check). -/
theorem get_cached_branch_characterisation (s : Stores) (impl : Implementation)
    (hl : ∀ k p, s.lookup k = some p → p ≠ "") :
    (impl.isDistribution = true → get_cached s impl = impl.installed) ∧
    (impl.isDistribution = false → startsWithSlash impl.id = true →
      get_cached s impl = s.path_exists impl.id) ∧
    (impl.isDistribution = false → startsWithSlash impl.id = false →
      (get_cached s impl = true ↔ (s.lookup impl.id).isSome = true)) := by
  refine ⟨?_, ?_, ?_⟩
  · intro hd
    simp [get_cached, hd]
  · intro hd hp
    simp [get_cached, hd, hp]
  · intro hd hp
    simp only [get_cached, hd, hp, Bool.false_eq_true, if_false,
      get_implementation_path]
    cases hlk : s.lookup impl.id with
    | none => simp
    | some p =>
      have hpne : p ≠ "" := hl _ _ hlk
      simp [hpne]

/-- Witness instantiating the presence-check theorem at a store-keyed
implementation whose lookup succeeds. -/
theorem get_cached_branch_characterisation_witness :
    (∀ k p, stores0.lookup k = some p → p ≠ "") ∧
    (get_cached stores0 implStoreKeyed = true ↔
      (stores0.lookup implStoreKeyed.id).isSome = true) := by
  have hl : ∀ k p, stores0.lookup k = some p → p ≠ "" := by
    intro k p h
    simp only [stores0] at h
    by_cases hk : (k == "sha1=abc") = true
    · rw [if_pos hk] at h
      cases h
      decide
    · rw [if_neg hk] at h
      cases h
  exact ⟨hl, (get_cached_branch_characterisation stores0 implStoreKeyed hl).2.2
    (by decide) (by decide)⟩

/-- Helper: the offline gate returns a download handle exactly when the
network-use mode is not off-line. -/
theorem gate_handle_eq (nu : String) (w : Bool) (u : String) :
    (download_and_import_feed_if_online nu w u).handle =
      if nu == network_offline then none else some u := by
  by_cases h : (nu == network_offline) = true
  · simp only [download_and_import_feed_if_online, h, Bool.not_true, Bool.false_eq_true,
      if_false, if_pos]
    by_cases hw : w = true
    · simp [hw]
    · by_cases hg : (u == injector_gui_uri) = true
      · simp [hw, hg]
      · simp [hw, hg]
  · simp [download_and_import_feed_if_online, h]

/-- Helper: once the warned flag is set, every suppressed attempt logs at debug
and returns no handle. -/
theorem offline_gate_run_warned (urls : List String) :
    offline_gate_run true urls = urls.map (fun _ => (none, LogLevel.debug)) := by
  induction urls with
  | nil => rfl
  | cons u rest ih =>
    simp [offline_gate_run, download_and_import_feed_if_online, ih]

/-- C7 counterexample: a process whose only suppressed offline attempt is for
the GUI bootstrap feed logs at info and emits zero warning-level messages, so
the claim that a warning is emitted exactly once, for the first suppressed
attempt, is false. -/
theorem offline_gate_no_warning_for_gui_only_cex :
    offline_gate_run false [injector_gui_uri] = [(none, LogLevel.info)] ∧
      (offline_gate_run false [injector_gui_uri]).countP
        (fun r => r.2 == LogLevel.warning) = 0 :=
  ⟨rfl, rfl⟩

/-- C7 amended: across a process's suppressed offline attempts, GUI-feed
attempts made before the warned flag is set log at info without setting the
flag; the first non-GUI attempt logs the one warning-level message and sets the
flag; every later attempt logs at debug; and no suppressed attempt returns a
download handle. -/
theorem offline_gate_amended_log_sequence (urls : List String) :
    offline_gate_run false urls = offline_logs_amended urls := by
  induction urls with
  | nil => rfl
  | cons u rest ih =>
    by_cases hg : (u == injector_gui_uri) = true
    · have hstep : offline_gate_run false (u :: rest) =
          (none, LogLevel.info) :: offline_gate_run false rest := by
        simp [offline_gate_run, download_and_import_feed_if_online, hg]
      have hspec : offline_logs_amended (u :: rest) =
          (none, LogLevel.info) :: offline_logs_amended rest := by
        simp only [offline_logs_amended, List.takeWhile_cons, List.dropWhile_cons, hg,
          if_true]
        cases hdw : rest.dropWhile (fun x => x == injector_gui_uri) with
        | nil => simp [hdw]
        | cons a tl => simp [hdw]
      rw [hstep, hspec, ih]
    · have hstep : offline_gate_run false (u :: rest) =
          (none, LogLevel.warning) :: offline_gate_run true rest := by
        simp [offline_gate_run, download_and_import_feed_if_online, hg]
      have hspec : offline_logs_amended (u :: rest) =
          (none, LogLevel.warning) :: rest.map (fun _ => (none, LogLevel.debug)) := by
        simp [offline_logs_amended, List.takeWhile_cons, List.dropWhile_cons, hg]
      rw [hstep, hspec, offline_gate_run_warned]

/-- C10: `recalculate` returns the empty blockers list on every input: the list
is created and never appended to, so callers get no handles for the downloads
the call may have started. -/
theorem recalculate_returns_empty_blockers (env : RecalcEnv)
    (warned0 fetch_stale_interfaces : Bool) :
    (recalculate env warned0 fetch_stale_interfaces).blockers = [] := rfl

/-- C4 counterexample: on an online environment whose only used feed is absent
from the cache, `recalculate` hands that feed to the fetcher, so the claim that
it never launches downloads is false. -/
theorem recalculate_launches_downloads_cex :
    (recalculate recalcEnvCex false true).launched = ["http://example.com/feed.xml"] ∧
      ["http://example.com/feed.xml"] ≠ ([] : List String) :=
  ⟨rfl, by decide⟩

/-- Helper: membership in the stale-set insertion used by the feed loop. -/
theorem mem_set_add (l : List String) (g f : String) [Decidable (g ∈ l)] :
    (f ∈ (if g ∈ l then l else l ++ [g])) ↔ (f ∈ l ∨ f = g) := by
  by_cases hg : g ∈ l
  · simp only [hg, if_true]
    constructor
    · exact fun h => Or.inl h
    · rintro (h | rfl)
      · exact h
      · exact hg
  · simp [hg, List.mem_append]

/-- Helper: the stale-set update of one feed-loop iteration. -/
theorem recalc_feed_stale_mem (env : RecalcEnv) (fetch_stale : Bool) (acc : RecalcAcc)
    (g f : String) :
    f ∈ (recalc_feed env fetch_stale acc g).stale ↔
      f ∈ acc.stale ∨ (f = g ∧ stale_entry env g = true) := by
  unfold recalc_feed stale_entry
  by_cases hs : startsWithSlash g = true
  · simp [hs]
  · simp only [hs, Bool.false_eq_true, if_false, Bool.not_false, Bool.true_and]
    cases hgf : env.cache.get_feed g with
    | none => simp
    | some feed =>
      by_cases hlm : feed.last_modified.isNone = true
      · simp [hlm]
      · by_cases hst : is_stale env.cache env.freshness env.now (some feed) = true
        · by_cases hf : fetch_stale = true
          · simp [hlm, hst, hf, mem_set_add]
          · simp [hlm, hst, hf, mem_set_add]
        · simp [hlm, hst]

/-- Helper: the launch behaviour of one feed-loop iteration. -/
theorem recalc_feed_launched (env : RecalcEnv) (fetch_stale : Bool) (acc : RecalcAcc)
    (g : String) :
    (recalc_feed env fetch_stale acc g).launched =
      acc.launched ++
        (if env.network_use == network_offline then []
         else if wants_download env fetch_stale g then [g] else []) := by
  unfold recalc_feed wants_download
  by_cases hs : startsWithSlash g = true
  · simp [hs]
  · simp only [hs, Bool.false_eq_true, if_false, Bool.not_false, Bool.true_and]
    by_cases ho : (env.network_use == network_offline) = true
    · cases hgf : env.cache.get_feed g with
      | none => simp [gate_handle_eq, ho]
      | some feed =>
        by_cases hlm : feed.last_modified.isNone = true
        · simp [gate_handle_eq, ho, hlm]
        · by_cases hst : is_stale env.cache env.freshness env.now (some feed) = true
          · by_cases hf : fetch_stale = true
            · simp [gate_handle_eq, ho, hlm, hst, hf]
            · simp [gate_handle_eq, ho, hlm, hst, hf]
          · simp [gate_handle_eq, ho, hlm, hst]
    · cases hgf : env.cache.get_feed g with
      | none => simp [gate_handle_eq, ho]
      | some feed =>
        by_cases hlm : feed.last_modified.isNone = true
        · simp [gate_handle_eq, ho, hlm]
        · by_cases hst : is_stale env.cache env.freshness env.now (some feed) = true
          · by_cases hf : fetch_stale = true
            · simp [gate_handle_eq, ho, hlm, hst, hf]
            · simp [gate_handle_eq, ho, hlm, hst, hf]
          · simp [gate_handle_eq, ho, hlm, hst]

/-- Helper: the feed loop of `recalculate`, folded over the used feeds, records
exactly the stale entries in its stale set and hands exactly the
wanting-download feeds to the fetcher (none when off-line). -/
theorem recalc_fold_spec (env : RecalcEnv) (fetch_stale : Bool) (feeds : List String) :
    ∀ acc : RecalcAcc,
      (∀ f, f ∈ (feeds.foldl (recalc_feed env fetch_stale) acc).stale ↔
        f ∈ acc.stale ∨ (f ∈ feeds ∧ stale_entry env f = true)) ∧
      (feeds.foldl (recalc_feed env fetch_stale) acc).launched =
        acc.launched ++
          (if env.network_use == network_offline then []
           else feeds.filter (fun f => wants_download env fetch_stale f)) := by
  induction feeds with
  | nil =>
    intro acc
    constructor
    · intro f
      simp
    · by_cases ho : (env.network_use == network_offline) = true <;> simp [ho]
  | cons g fs ih =>
    intro acc
    constructor
    · intro f
      rw [List.foldl_cons, (ih (recalc_feed env fetch_stale acc g)).1 f,
        recalc_feed_stale_mem]
      constructor
      · rintro ((h | ⟨rfl, hp⟩) | ⟨hm, hp⟩)
        · exact Or.inl h
        · exact Or.inr ⟨List.mem_cons_self _ _, hp⟩
        · exact Or.inr ⟨List.mem_cons_of_mem _ hm, hp⟩
      · rintro (h | ⟨hm, hp⟩)
        · exact Or.inl (Or.inl h)
        · rcases List.mem_cons.mp hm with rfl | hm'
          · exact Or.inl (Or.inr ⟨rfl, hp⟩)
          · exact Or.inr ⟨hm', hp⟩
    · rw [List.foldl_cons, (ih (recalc_feed env fetch_stale acc g)).2,
        recalc_feed_launched, List.append_assoc]
      congr 1
      by_cases ho : (env.network_use == network_offline) = true
      · simp [ho]
      · simp only [ho, Bool.false_eq_true, if_false, List.filter_cons]
        by_cases hw : wants_download env fetch_stale g = true <;> simp [hw]

/-- C4 amended: `recalculate` performs its single solve, rebuilds the
stale-feed set (exactly the non-local cached feeds with a last-modified stamp
that are judged stale), notifies every watcher, launches a download for exactly
the non-local feeds that are missing, never modified, or stale with stale
fetching enabled — all suppressed when off-line — and returns no handles for
them (empty blockers). -/
theorem recalculate_amended_characterisation (env : RecalcEnv)
    (warned0 fetch_stale_interfaces : Bool) :
    (recalculate env warned0 fetch_stale_interfaces).notified = true ∧
    (recalculate env warned0 fetch_stale_interfaces).blockers = [] ∧
    (∀ f, f ∈ (recalculate env warned0 fetch_stale_interfaces).stale_feeds ↔
      f ∈ env.feeds_used ∧ stale_entry env f = true) ∧
    (∀ f, f ∈ (recalculate env warned0 fetch_stale_interfaces).launched ↔
      env.network_use ≠ network_offline ∧ f ∈ env.feeds_used ∧
        wants_download env fetch_stale_interfaces f = true) := by
  have h := recalc_fold_spec env
    (if env.network_use == network_offline then false else fetch_stale_interfaces)
    env.feeds_used { stale := [], launched := [], warned := warned0 }
  refine ⟨rfl, rfl, ?_, ?_⟩
  · intro f
    have hs := h.1 f
    simp only [recalculate]
    rw [hs]
    simp
  · intro f
    have hl := h.2
    simp only [recalculate]
    rw [hl]
    by_cases ho : (env.network_use == network_offline) = true
    · have heq : env.network_use = network_offline := by simpa using ho
      simp [ho, heq]
    · have hne : env.network_use ≠ network_offline := by simpa using ho
      simp [ho, hne, List.mem_filter]

/-- Helper: the launch pass preserves the dedup invariant — it only adds URLs
that are neither finished, nor in progress, nor already launched. -/
theorem launch_feeds_inv (fin : List String) (feeds : List String) :
    ∀ ip ln, ip.Nodup → ln.Nodup → (∀ f ∈ ip, f ∉ fin) →
      (∀ f, f ∈ ln ↔ (f ∈ fin ∨ f ∈ ip)) →
      ((launch_feeds fin feeds ip ln).1.Nodup ∧
       (launch_feeds fin feeds ip ln).2.Nodup ∧
       (∀ f ∈ (launch_feeds fin feeds ip ln).1, f ∉ fin) ∧
       (∀ f, f ∈ (launch_feeds fin feeds ip ln).2 ↔
         (f ∈ fin ∨ f ∈ (launch_feeds fin feeds ip ln).1))) := by
  induction feeds with
  | nil =>
    intro ip ln h1 h2 h3 h4
    exact ⟨h1, h2, h3, h4⟩
  | cons g fs ih =>
    intro ip ln h1 h2 h3 h4
    by_cases hc : (fin.contains g || ip.contains g) = true
    · simp only [launch_feeds, hc, if_true]
      exact ih ip ln h1 h2 h3 h4
    · by_cases hsl : startsWithSlash g = true
      · simp only [launch_feeds, hc, Bool.false_eq_true, if_false, hsl, if_true]
        exact ih ip ln h1 h2 h3 h4
      · simp only [launch_feeds, hc, hsl, Bool.false_eq_true, if_false]
        have hnot : ¬ (g ∈ fin ∨ g ∈ ip) := by simpa using hc
        obtain ⟨hgf, hgi⟩ := not_or.mp hnot
        have hgl : g ∉ ln := fun hx => hnot ((h4 g).mp hx)
        refine ih (ip ++ [g]) (ln ++ [g]) ?_ ?_ ?_ ?_
        · simp [List.nodup_append, h1, hgi]
        · simp [List.nodup_append, h2, hgl]
        · intro f hf
          rcases List.mem_append.mp hf with hf' | hf'
          · exact h3 f hf'
          · rcases List.mem_singleton.mp hf' with rfl
            exact hgf
        · intro f
          rw [List.mem_append, h4 f, List.mem_append]
          constructor
          · rintro ((hl | hl) | hl)
            · exact Or.inl hl
            · exact Or.inr (Or.inl hl)
            · exact Or.inr (Or.inr hl)
          · rintro (hl | (hl | hl))
            · exact Or.inl (Or.inl hl)
            · exact Or.inl (Or.inr hl)
            · exact Or.inr hl

/-- Helper: moving completed downloads from in-progress to finished preserves
the dedup invariant. -/
theorem completion_inv (happened : String → Bool) (fin ip ln : List String)
    (h1 : ip.Nodup) (h3 : ∀ f ∈ ip, f ∉ fin)
    (h4 : ∀ f, f ∈ ln ↔ (f ∈ fin ∨ f ∈ ip)) :
    ((ip.filter (fun f => !happened f)).Nodup ∧
     (∀ f ∈ ip.filter (fun f => !happened f),
        f ∉ fin ++ ip.filter (fun f => happened f)) ∧
     (∀ f, f ∈ ln ↔ (f ∈ fin ++ ip.filter (fun f => happened f) ∨
        f ∈ ip.filter (fun f => !happened f)))) := by
  refine ⟨h1.filter _, ?_, ?_⟩
  · intro f hf hmem
    have hfip : f ∈ ip := List.mem_of_mem_filter hf
    have hfh : (!happened f) = true := (List.mem_filter.mp hf).2
    rcases List.mem_append.mp hmem with hc | hc
    · exact h3 f hfip hc
    · have hch : happened f = true := (List.mem_filter.mp hc).2
      simp [hch] at hfh
  · intro f
    rw [h4 f]
    constructor
    · rintro (hc | hc)
      · exact Or.inl (List.mem_append.mpr (Or.inl hc))
      · by_cases hh : happened f = true
        · exact Or.inl (List.mem_append.mpr (Or.inr (List.mem_filter.mpr ⟨hc, hh⟩)))
        · exact Or.inr (List.mem_filter.mpr ⟨hc, by simp [hh]⟩)
    · rintro (hc | hc)
      · rcases List.mem_append.mp hc with hc' | hc'
        · exact Or.inl hc'
        · exact Or.inr (List.mem_of_mem_filter hc')
      · exact Or.inr (List.mem_of_mem_filter hc)

/-- Helper: a terminated loop state absorbs any further round. -/
theorem loop_step_of_terminated (offline : Bool) (r : Round) (st : LoopState)
    (t : TermReason) (h : st.terminated = some t) : loop_step offline st r = st := by
  simp [loop_step, h]

/-- Helper: a terminated loop state absorbs any list of rounds. -/
theorem loop_foldl_of_terminated (offline : Bool) (rounds : List Round) (st : LoopState)
    (t : TermReason) (h : st.terminated = some t) :
    rounds.foldl (loop_step offline) st = st := by
  induction rounds with
  | nil => rfl
  | cons r rs ih =>
    rw [List.foldl_cons, loop_step_of_terminated offline r st t h]
    exact ih

/-- Helper: one loop iteration preserves the dedup invariant. -/
theorem loop_step_inv (offline : Bool) (r : Round) (st : LoopState) (h : LoopInv st) :
    LoopInv (loop_step offline st r) := by
  obtain ⟨h1, h2, h3, h4, h5⟩ := h
  cases ht : st.terminated with
  | some t =>
    rw [loop_step_of_terminated offline r st t ht]
    exact ⟨h1, h2, h3, h4, h5⟩
  | none =>
    by_cases hr : (r.ready && !st.force) = true
    · unfold LoopInv
      simp only [loop_step, ht, hr, if_true]
      exact ⟨h1, h2, h3, h4, by intro hx; simp at hx⟩
    · by_cases ho : offline = true
      · by_cases hip : st.inProgress.isEmpty = true
        · unfold LoopInv
          simp only [loop_step, ht, hr, ho, if_true, Bool.false_eq_true, if_false, hip]
          exact ⟨h1, h2, h3, h4, fun _ => List.isEmpty_iff.mp hip⟩
        · unfold LoopInv
          simp only [loop_step, ht, hr, ho, if_true, Bool.false_eq_true, if_false, hip]
          obtain ⟨c1, c2, c3⟩ := completion_inv r.happened st.finished st.inProgress
            st.launched h1 h3 h4
          exact ⟨c1, h2, c2, c3, by intro hx; simp at hx⟩
      · have hof : offline = false := Bool.eq_false_iff.mpr ho
        obtain ⟨l1, l2, l3, l4⟩ := launch_feeds_inv st.finished r.feedsUsed
          st.inProgress st.launched h1 h2 h3 h4
        by_cases hip : (launch_feeds st.finished r.feedsUsed st.inProgress
            st.launched).1.isEmpty = true
        · unfold LoopInv
          simp only [loop_step, ht, hr, hof, Bool.false_eq_true, if_false, hip, if_true]
          exact ⟨l1, l2, l3, l4, fun _ => List.isEmpty_iff.mp hip⟩
        · unfold LoopInv
          simp only [loop_step, ht, hr, hof, Bool.false_eq_true, if_false, hip]
          obtain ⟨c1, c2, c3⟩ := completion_inv r.happened st.finished
            (launch_feeds st.finished r.feedsUsed st.inProgress st.launched).1
            (launch_feeds st.finished r.feedsUsed st.inProgress st.launched).2 l1 l3 l4
          exact ⟨c1, l2, c2, c3, by intro hx; simp at hx⟩

/-- Helper: the invariant holds along any fold of loop iterations. -/
theorem loop_foldl_inv (offline : Bool) (rounds : List Round) :
    ∀ st, LoopInv st → LoopInv (rounds.foldl (loop_step offline) st) := by
  induction rounds with
  | nil => intro st h; exact h
  | cons r rs ih =>
    intro st h
    exact ih _ (loop_step_inv offline r st h)

/-- Helper: the invariant holds at the initial loop state. -/
theorem loop_init_inv (force : Bool) : LoopInv (loop_init force) := by
  refine ⟨List.nodup_nil, List.nodup_nil, ?_, ?_, ?_⟩ <;> simp [loop_init]

/-- C1: in every execution of `solve_with_downloads`, the in-progress download
map never holds a URL twice, no URL is launched twice (a download is launched
only when its URL is in neither the finished set nor the in-progress map),
in-progress URLs are never already finished, and when the loop exits by
exhausting its in-progress downloads every launched URL is in the finished
set. -/
theorem solve_with_downloads_no_duplicate_downloads (offline force : Bool)
    (rounds : List Round) :
    (loop_run offline force rounds).inProgress.Nodup ∧
    (loop_run offline force rounds).launched.Nodup ∧
    (∀ f ∈ (loop_run offline force rounds).inProgress,
      f ∉ (loop_run offline force rounds).finished) ∧
    ((loop_run offline force rounds).terminated = some .exhausted →
      ∀ f ∈ (loop_run offline force rounds).launched,
        f ∈ (loop_run offline force rounds).finished) := by
  obtain ⟨h1, h2, h3, h4, h5⟩ :=
    loop_foldl_inv offline rounds (loop_init force) (loop_init_inv force)
  refine ⟨h1, h2, h3, ?_⟩
  intro hterm f hf
  rcases (h4 f).mp hf with hc | hc
  · exact hc
  · rw [h5 hterm] at hc
    cases hc

/-- Witness instantiating the dedup theorem on a run that launches one feed,
completes it, and then exits by exhaustion with the feed in the finished
set. -/
theorem solve_with_downloads_no_duplicate_downloads_witness :
    (loop_run false false [round_launch, round_drain]).terminated =
        some TermReason.exhausted ∧
      "http://a" ∈ (loop_run false false [round_launch, round_drain]).finished := by
  refine ⟨rfl, ?_⟩
  refine (solve_with_downloads_no_duplicate_downloads false false
    [round_launch, round_drain]).2.2.2 rfl "http://a" ?_
  have hl : (loop_run false false [round_launch, round_drain]).launched = ["http://a"] :=
    rfl
  rw [hl]
  exact List.mem_singleton.mpr rfl

/-- C2: when the solver reports ready on the first solve and the loop is
entered with force unset, the loop performs exactly one solver invocation,
launches no downloads, and exits ready at once — whatever rounds could have
followed; re-invoking it in a ready state is therefore idempotent. -/
theorem solve_with_downloads_ready_idempotent (offline : Bool) (r : Round)
    (rest : List Round) (h : r.ready = true) :
    loop_run offline false (r :: rest) =
      { finished := [], inProgress := [], launched := [], force := false, solves := 1,
        terminated := some TermReason.ready } := by
  have hstep : loop_step offline (loop_init false) r =
      { finished := [], inProgress := [], launched := [], force := false, solves := 1,
        terminated := some TermReason.ready } := by
    simp [loop_step, loop_init, h]
  unfold loop_run
  rw [List.foldl_cons, hstep]
  exact loop_foldl_of_terminated offline rest _ TermReason.ready rfl

/-- Witness instantiating the idempotence theorem on a concrete ready round. -/
theorem solve_with_downloads_ready_idempotent_witness :
    round_ready.ready = true ∧
      loop_run false false [round_ready] =
        { finished := [], inProgress := [], launched := [], force := false, solves := 1,
          terminated := some TermReason.ready } :=
  ⟨rfl, solve_with_downloads_ready_idempotent false round_ready [] rfl⟩

/-- C9 counterexample: a config file whose freshness entry is malformed while
the earlier entries parse makes construction log a warning yet keep the
configured help-with-testing value, so the claim that the settings retain their
default values on a load error is false. -/
theorem load_config_partial_assignment_cex :
    (load_config (some cfg_bad_freshness) default_settings).2 = true ∧
      (load_config (some cfg_bad_freshness) default_settings).1.help_with_testing = true ∧
      default_settings.help_with_testing = false :=
  ⟨rfl, rfl, rfl⟩

/-- C9 amended: construction never fails on a missing or malformed
configuration: a missing file leaves the defaults silently; any error inside
the try-block is caught and logged as a warning, with the settings assigned
before the failing access keeping their configured values and the remaining
settings keeping their defaults; when every access succeeds all three settings
take the configured values, and the trailing network-level assert can at most
log a warning. -/
theorem load_config_amended_characterisation (cfg : Option RawConfig) (st : Settings) :
    (load_config none st = (st, false)) ∧
    (∀ c, cfg = some c → c.help_with_testing = none →
      load_config cfg st = (st, true)) ∧
    (∀ c b, cfg = some c → c.help_with_testing = some b → c.network_use = none →
      load_config cfg st = ({ st with help_with_testing := b }, true)) ∧
    (∀ c b n, cfg = some c → c.help_with_testing = some b → c.network_use = some n →
      c.freshness = none →
      load_config cfg st = ({ st with help_with_testing := b, network_use := n }, true)) ∧
    (∀ c b n fr, cfg = some c → c.help_with_testing = some b → c.network_use = some n →
      c.freshness = some fr →
      load_config cfg st =
        ({ help_with_testing := b, network_use := n, freshness := fr },
          !network_levels.contains n)) := by
  refine ⟨rfl, ?_, ?_, ?_, ?_⟩
  · rintro c rfl hb
    simp [load_config, read_config_steps, hb]
  · rintro c b rfl hb hn
    simp [load_config, read_config_steps, hb, hn]
  · rintro c b n rfl hb hn hf
    simp [load_config, read_config_steps, hb, hn, hf]
  · rintro c b n fr rfl hb hn hf
    simp only [load_config, read_config_steps, hb, hn, hf]
    by_cases hlev : n ∈ network_levels
    · simp [hlev]
    · simp [hlev]

/-- Witness instantiating the amended config theorem on the malformed-freshness
configuration. -/
theorem load_config_amended_characterisation_witness :
    cfg_bad_freshness.help_with_testing = some true ∧
      cfg_bad_freshness.network_use = some network_full ∧
      cfg_bad_freshness.freshness = none ∧
      load_config (some cfg_bad_freshness) default_settings =
        ({ default_settings with help_with_testing := true, network_use := network_full },
          true) :=
  ⟨rfl, rfl, rfl,
    (load_config_amended_characterisation (some cfg_bad_freshness)
      default_settings).2.2.2.1 cfg_bad_freshness true network_full rfl rfl rfl rfl⟩

end ZeroInstall
